import Mathlib

/-!
# setPCA9553: register codec and device session

A shallow embedding of `setPCA9553.c`, the one-shot command-line tool that
configures a PCA9553 LED driver over I2C, together with theorems about its
bit packing, its read protocol and the order of its register writes.

Conventions of the embedding.

* `uint8_t` values are natural numbers; where C converts a wider value to
  `uint8_t` the embedding reduces modulo 256 explicitly.  C `int` bit patterns
  are naturals below `2 ^ 32`.
* C strings are `String`s of their characters (a C string holds no NUL), a
  `char *` that may be `NULL` is an `Option String`.
* The arrays `writeBuf` and `readBuf` are functions from index to byte.
* The I2C character device is an environment that answers every `write` and
  `read` system call; its answers are a script consumed one per call.  The
  program's system calls and its standard output are recorded in order.
* `exit(1)` inside `generate_new_ls0` is an `Except.error` carrying the exit
  status and the line printed just before it.
-/

set_option maxRecDepth 100000

namespace SetPCA9553

/-! ## Machine arithmetic and libc -/

/-- Conversion of an integer value to `uint8_t`. -/
def u8 (n : Nat) : Nat := n % 256

/-- C `~` on a 32-bit `int`, as a two-complement bit pattern below `2 ^ 32`. -/
def bnot32 (n : Nat) : Nat := 2 ^ 32 - 1 - n % 2 ^ 32

/-- libc `strcmp` on the characters of two NUL-free strings: zero when they are
equal, negative or positive according to the first differing character. -/
def strcmp : List Char → List Char → Int
  | [], [] => 0
  | [], _ :: _ => -1
  | _ :: _, [] => 1
  | a :: as, b :: bs =>
    if a = b then strcmp as bs else if a.toNat < b.toNat then -1 else 1

/-- printf `%02X` of an unsigned value: upper-case hexadecimal, zero padded to
width two. -/
def fmt02X (n : Nat) : String :=
  let ds := (Nat.toDigits 16 n).map Char.toUpper
  String.mk (List.replicate (2 - ds.length) '0' ++ ds)

/-- printf `%4s`: the string right-justified in a field of width four. -/
def fmt4s (s : String) : String :=
  String.mk (List.replicate (4 - s.length) ' ' ++ s.data)

/-- printf `%d` of a non-negative value. -/
def fmtd (n : Nat) : String := toString n

/-! ## Data -/

/-- C `struct arguments`, as filled by `argp_parse` (lines 36-56). -/
structure arguments where
  PCA_i2c_address : Nat
  i2cbus : Nat
  pwm0 : Nat
  pwm1 : Nat
  psc0 : Nat
  psc1 : Nat
  pwm0_inuse : Nat
  pwm1_inuse : Nat
  psc0_inuse : Nat
  psc1_inuse : Nat
  led0_str : Option String
  led1_str : Option String
  led2_str : Option String
  led3_str : Option String

/-- C `struct PCA_regs` (lines 58-66). -/
structure PCA_regs where
  INPUT : Nat
  PSC0 : Nat
  PWM0 : Nat
  PSC1 : Nat
  PWM1 : Nat
  LS0 : Nat
  deriving DecidableEq, Repr

/-- System calls on the I2C device file, as issued by the program. -/
inductive Syscall where
  | sys_open (path : String)
  | sys_ioctl (address : Nat)
  | sys_write (bytes : List Nat)
  | sys_read (count : Nat)
  | sys_close
  deriving DecidableEq, Repr

/-- Process termination through `exit`: the status and the line printed just
before. -/
structure Fatal where
  status : Nat
  message : String
  deriving DecidableEq, Repr

/-- The global state of the program and its environment.  `bus` holds the
answers the device file will give to the coming `write` and `read` calls:
`none` is a failed call (result `-1`), `some data` a successful one, whose
`data` are the bytes delivered to a `read`. -/
structure World where
  writeBuf : Nat → Nat
  readBuf : Nat → Nat
  curr_regs : PCA_regs
  bus : List (Option (List Nat))
  calls : List Syscall
  stdout : List String

/-- The state at program start: zero-initialised globals, nothing issued. -/
def init_world (bus : List (Option (List Nat))) : World :=
  { writeBuf := fun _ => 0, readBuf := fun _ => 0,
    curr_regs := ⟨0, 0, 0, 0, 0, 0⟩, bus := bus, calls := [], stdout := [] }

/-- `printf` of one already formatted line. -/
def printf (w : World) (line : String) : World :=
  { w with stdout := w.stdout ++ [line] }

/-- `write(I2CFile, writeBuf, count)`: the first `count` bytes of `writeBuf`
go to the device; the result of the call is discarded by every caller. -/
def write (w : World) (count : Nat) : World :=
  { w with calls := w.calls ++ [Syscall.sys_write ((List.range count).map w.writeBuf)],
           bus := w.bus.tail }

/-- The buffer after the device delivered `data` at its start. -/
def blit (data : List Nat) (buf : Nat → Nat) : Nat → Nat :=
  fun k => if k < data.length then data.getD k 0 else buf k

/-- The read buffer after a `read` of `count` bytes answered by `answer`: a
failed call leaves it as it was. -/
def read_into (answer : Option (Option (List Nat))) (count : Nat) (buf : Nat → Nat) :
    Nat → Nat :=
  match answer with
  | some (some data) => blit (data.take count) buf
  | _ => buf

/-- `read(I2CFile, readBuf, count)`; the result of the call is discarded by
every caller. -/
def read (w : World) (count : Nat) : World :=
  { w with readBuf := read_into w.bus.head? count w.readBuf,
           calls := w.calls ++ [Syscall.sys_read count],
           bus := w.bus.tail }

/-! ## The program -/

/-- The code selected by the `strcmp` chain of `generate_new_ls0` (lines
160-173) for `ls_val`; `none` is the final `else` branch. -/
def ls_val (led_str : String) : Option Nat :=
  if strcmp led_str.data "PWM0".data = 0 then some 0b10
  else if strcmp led_str.data "PWM1".data = 0 then some 0b11
  else if strcmp led_str.data "ON".data = 0 then some 0b00
  else if strcmp led_str.data "Z".data = 0 then some 0b01
  else none

/-- `generate_new_ls0` (lines 147-178). -/
def generate_new_ls0 (old_ls0 : Nat) (led_str : String) (led_num : Nat) :
    Except Fatal Nat :=
  if led_num > 3 then
    .ok old_ls0
  else
    match ls_val led_str with
    | none => .error ⟨1, "Invalid led string for LED" ++ fmtd led_num ++ "\n"⟩
    | some v =>
      .ok (u8 ((old_ls0 &&& bnot32 (0x03 <<< (led_num * 2))) ||| (v <<< (led_num * 2))))

/-- `get_curr_regs` (lines 180-199). -/
def get_curr_regs (w : World) : World :=
  let w := { w with writeBuf := Function.update w.writeBuf 0 0x10 }
  let w := write w 1
  let w := read w 6
  let w := { w with curr_regs := { w.curr_regs with
    PSC0 := w.readBuf 1, PWM0 := w.readBuf 2, PSC1 := w.readBuf 3,
    PWM1 := w.readBuf 4, LS0 := w.readBuf 5 } }
  let w := { w with writeBuf := Function.update w.writeBuf 0 0x00 }
  let w := write w 1
  let w := read w 1
  { w with curr_regs := { w.curr_regs with INPUT := w.readBuf 0 } }

/-- The conditional expression that names a LED mode in `print_curr_regs`
(lines 209-212), applied to the shifted `LS0`. -/
def led_mode_str (v : Nat) : String :=
  if v &&& 0b10 ≠ 0 then (if v &&& 0b01 ≠ 0 then "PWM1" else "PWM0")
  else (if v &&& 0b01 ≠ 0 then "Z" else "ON")

/-- The lines `print_curr_regs` prints for a register bank (lines 201-213). -/
def curr_regs_lines (r : PCA_regs) : List String :=
  [ "  INPUT  0x" ++ fmt02X r.INPUT ++ " (read-only)\n",
    "  PSC0   0x" ++ fmt02X r.PSC0 ++ " (use -s to set)\n",
    "  PWM0   0x" ++ fmt02X r.PWM0 ++ " (use -p to set)\n",
    "  PSC1   0x" ++ fmt02X r.PSC1 ++ " (use -t to set)\n",
    "  PWM1   0x" ++ fmt02X r.PWM1 ++ " (use -q to set)\n",
    "  LS0    0x" ++ fmt02X r.LS0 ++ "\n",
    "    LED0 " ++ fmt4s (led_mode_str r.LS0) ++ " (use -l to set)\n",
    "    LED1 " ++ fmt4s (led_mode_str (r.LS0 >>> 2)) ++ " (use -m to set)\n",
    "    LED2 " ++ fmt4s (led_mode_str (r.LS0 >>> 4)) ++ " (use -n to set)\n",
    "    LED3 " ++ fmt4s (led_mode_str (r.LS0 >>> 6)) ++ " (use -o to set)\n" ]

/-- `print_curr_regs` (lines 201-213). -/
def print_curr_regs (w : World) : World :=
  { w with stdout := w.stdout ++ curr_regs_lines w.curr_regs }

/-- One register write of `main`: the announcement, the three stores into
`writeBuf`, the two-byte `write` (for instance lines 261-265). -/
def write_reg (w : World) (line : Option String) (command value : Nat) : World :=
  let w := match line with
    | some l => printf w l
    | none => w
  let w := { w with writeBuf := Function.update w.writeBuf 0 command }
  let w := { w with writeBuf := Function.update w.writeBuf 1 value }
  let w := { w with writeBuf := Function.update w.writeBuf 2 0 }
  write w 2

/-- Lines 258-297 of `main`: the four prescaler and PWM writes; the result
holds `changes_made`. -/
def main_regs (args : arguments) (w : World) : Nat × World :=
  let changes_made := 0
  let (changes_made, w) :=
    if args.psc0_inuse ≠ 0 then
      (u8 (changes_made + 1),
        write_reg w (some ("Writing PSC0 value of 0x" ++ fmt02X args.psc0 ++ "\n"))
          0b00000001 args.psc0)
    else (changes_made, w)
  let (changes_made, w) :=
    if args.psc1_inuse ≠ 0 then
      (u8 (changes_made + 1),
        write_reg w (some ("Writing PSC1 value of 0x" ++ fmt02X args.psc1 ++ "\n"))
          0b00000011 args.psc1)
    else (changes_made, w)
  let (changes_made, w) :=
    if args.pwm0_inuse ≠ 0 then
      (u8 (changes_made + 1),
        write_reg w (some ("Writing PWM0 value of 0x" ++ fmt02X args.pwm0 ++ "\n"))
          0b00000010 args.pwm0)
    else (changes_made, w)
  let (changes_made, w) :=
    if args.pwm1_inuse ≠ 0 then
      (u8 (changes_made + 1),
        write_reg w (some ("Writing PWM1 value of 0x" ++ fmt02X args.pwm1 ++ "\n"))
          0b00000100 args.pwm1)
    else (changes_made, w)
  (changes_made, w)

/-- One guarded call of `generate_new_ls0` in `main` (for instance lines
301-305). -/
def led_step (new_ls0 : Nat) (led_str : Option String) (led_num : Nat) :
    Except Fatal Nat :=
  match led_str with
  | none => .ok new_ls0
  | some s => generate_new_ls0 new_ls0 s led_num

/-- Lines 299-323 of `main`: `new_ls0` after the four guarded calls. -/
def main_leds (args : arguments) (ls0 : Nat) : Except Fatal Nat := do
  let new_ls0 := ls0
  let new_ls0 ← led_step new_ls0 args.led0_str 0
  let new_ls0 ← led_step new_ls0 args.led1_str 1
  let new_ls0 ← led_step new_ls0 args.led2_str 2
  let new_ls0 ← led_step new_ls0 args.led3_str 3
  pure new_ls0

/-- How a stretch of `main` ends: by `exit` or by reaching its last line. -/
inductive Ending where
  | exited (f : Fatal)
  | reached (changes_made : Nat) (new_ls0 : Nat)
  deriving DecidableEq, Repr

/-- Lines 258-333 of `main`, the apply phase: register writes, folding of the
LED requests, the `LS0` write when the byte changed. -/
def main_apply (args : arguments) (w : World) : Ending × World :=
  let (changes_made, w) := main_regs args w
  match main_leds args w.curr_regs.LS0 with
  | .error f => (.exited f, printf w f.message)
  | .ok new_ls0 =>
    if new_ls0 ≠ w.curr_regs.LS0 then
      (.reached (u8 (changes_made + 1)) new_ls0, write_reg w none 0b00000101 new_ls0)
    else
      (.reached changes_made new_ls0, w)

/-- The outcome of a run: exit status and final state. -/
structure Run where
  status : Nat
  world : World

/-- Lines 245-254 of `main`: opening the bus, selecting the device address,
reading and printing the current registers. -/
def main_open (args : arguments) (w : World) : World :=
  let w :=
    if args.i2cbus = 1 then
      { w with calls := w.calls ++ [Syscall.sys_open "/dev/i2c-1"] }
    else
      { w with calls := w.calls ++ [Syscall.sys_open "/dev/i2c-0"] }
  let w := { w with calls := w.calls ++ [Syscall.sys_ioctl args.PCA_i2c_address] }
  let w := printf w "Current Register Status:\n"
  let w := get_curr_regs w
  print_curr_regs w

/-- Lines 335-344 of `main`: the report after the apply phase and `close`. -/
def main_finish (changes_made : Nat) (w : World) : World :=
  let w :=
    if changes_made ≠ 0 then
      let w := printf w "New Register Status:\n"
      let w := get_curr_regs w
      print_curr_regs w
    else
      printf w "Not updating any registers.\n"
  { w with calls := w.calls ++ [Syscall.sys_close] }

/-- `main` (lines 215-348), from the `arguments` left by `argp_parse`.  The
call of `argp_parse` (line 234) returns only with `i2cbus ≤ 1`: `parse_opt`
(lines 85-89) ends the process in `argp_usage` for a larger bus id, and the
default is 1. -/
def main (args : arguments) (w : World) : Run :=
  let w := main_open args w
  match main_apply args w with
  | (.exited f, w) => ⟨f.status, w⟩
  | (.reached changes_made _, w) => ⟨0, main_finish changes_made w⟩

/-! ## Vocabulary of the statements -/

/-- The four accepted LED tokens. -/
def tokens : List String := ["ON", "Z", "PWM0", "PWM1"]

/-- The 2-bit field of LED `i` in an `LS0` byte. -/
def field (i : Nat) (x : Nat) : Nat := (x >>> (2 * i)) &&& 3

/-- The arguments left by `argp_parse` when no option is given (lines
220-230); the four values `pwm0 .. psc1` are uninitialised in C and taken as 0. -/
def no_request : arguments :=
  { PCA_i2c_address := 0x62, i2cbus := 1, pwm0 := 0, pwm1 := 0, psc0 := 0, psc1 := 0,
    pwm0_inuse := 0, pwm1_inuse := 0, psc0_inuse := 0, psc1_inuse := 0,
    led0_str := none, led1_str := none, led2_str := none, led3_str := none }

/-- The display name of a 2-bit LED code. -/
def code_name (c : Nat) : String :=
  match c with
  | 0 => "ON"
  | 1 => "Z"
  | 2 => "PWM0"
  | _ => "PWM1"

/-- The byte `generate_new_ls0` returns for code `c`. -/
def enc (x c i : Nat) : Nat := u8 ((x &&& bnot32 (0x03 <<< (i * 2))) ||| (c <<< (i * 2)))

/-- The line `print_curr_regs` prints for LED `i` when its mode name is `name`. -/
def led_line (i : Nat) (name : String) : String :=
  match i with
  | 0 => "    LED0 " ++ fmt4s name ++ " (use -l to set)\n"
  | 1 => "    LED1 " ++ fmt4s name ++ " (use -m to set)\n"
  | 2 => "    LED2 " ++ fmt4s name ++ " (use -n to set)\n"
  | _ => "    LED3 " ++ fmt4s name ++ " (use -o to set)\n"

/-- The LED string of slot `i` in the arguments. -/
def slot (args : arguments) (i : Nat) : Option String :=
  match i with
  | 0 => args.led0_str
  | 1 => args.led1_str
  | 2 => args.led2_str
  | _ => args.led3_str

/-- Every supplied LED string is one of the four tokens. -/
def valid_leds (args : arguments) : Prop :=
  ∀ i, i < 4 → ∀ s, slot args i = some s → s ∈ tokens

/-- The number of prescaler and PWM values requested. -/
def requested (args : arguments) : Nat :=
  (if args.psc0_inuse ≠ 0 then 1 else 0) + (if args.psc1_inuse ≠ 0 then 1 else 0) +
  (if args.pwm0_inuse ≠ 0 then 1 else 0) + (if args.pwm1_inuse ≠ 0 then 1 else 0)

/-- The frames of the requested prescaler and PWM writes, in program order. -/
def reg_frames (args : arguments) : List (List Nat) :=
  (if args.psc0_inuse ≠ 0 then [[0x01, args.psc0]] else []) ++
  (if args.psc1_inuse ≠ 0 then [[0x03, args.psc1]] else []) ++
  (if args.pwm0_inuse ≠ 0 then [[0x02, args.pwm0]] else []) ++
  (if args.pwm1_inuse ≠ 0 then [[0x04, args.pwm1]] else [])

/-- The guarded `generate_new_ls0` calls of `main` taken in an arbitrary order
of the slots. -/
def fold_in_order (args : arguments) (order : List Nat) (x : Nat) : Except Fatal Nat :=
  match order with
  | [] => .ok x
  | i :: rest =>
    match led_step x (slot args i) i with
    | .error f => .error f
    | .ok y => fold_in_order args rest y

/-- A request of `psc0 = 0x20` and `pwm1 = 0x80` and nothing else. -/
def psc0_pwm1_request : arguments :=
  { no_request with psc0_inuse := 1, psc0 := 0x20, pwm1_inuse := 1, pwm1 := 0x80 }

/-- A transport that answers the first read with six bytes and the second with one. -/
def demo_bus : List (Option (List Nat)) :=
  [some [], some [0x00, 0x10, 0x20, 0x30, 0x40, 0x55], some [], some [0x01]]

/-- A request of `psc0 = 0x20` together with the lower-case LED string "on". -/
def bad_led_request : arguments :=
  { no_request with psc0_inuse := 1, psc0 := 0x20, led0_str := some "on" }

/-- A transport whose first register read succeeds and whose later calls fail. -/
def fading_bus : List (Option (List Nat)) :=
  demo_bus ++ [none, none, none, none, none, none]

/-! ## Theorems -/

/-! ### The register codec -/

theorem strcmp_eq_zero_iff (a b : List Char) : strcmp a b = 0 ↔ a = b := by
  induction a generalizing b with
  | nil => cases b <;> simp [strcmp]
  | cons x xs ih =>
    cases b with
    | nil => simp [strcmp]
    | cons y ys =>
      by_cases h : x = y
      · simp [strcmp, h, ih]
      · by_cases h2 : x.toNat < y.toNat <;> simp [strcmp, h, h2]

theorem ls_val_eq (s : String) :
    ls_val s = if s = "PWM0" then some 2 else if s = "PWM1" then some 3
      else if s = "ON" then some 0 else if s = "Z" then some 1 else none := by
  simp only [ls_val, strcmp_eq_zero_iff, String.ext_iff]

theorem enc_lt : ∀ x < 256, ∀ i < 4, ∀ c < 4, enc x c i < 256 := by
  decide

theorem enc_field_self : ∀ x < 256, ∀ i < 4, ∀ c < 4, field i (enc x c i) = c := by
  decide

theorem enc_field_other : ∀ x < 256, ∀ i < 4, ∀ c < 4, ∀ j < 4, j ≠ i →
    field j (enc x c i) = field j x := by
  decide

theorem enc_mask : ∀ x < 256, ∀ i < 4, ∀ c < 4,
    enc x c i &&& (0xFF ^^^ (0x03 <<< (2 * i))) = x &&& (0xFF ^^^ (0x03 <<< (2 * i))) := by
  decide

theorem led_mode_str_field : ∀ r < 256, ∀ i < 4,
    led_mode_str (r >>> (2 * i)) = code_name (field i r) := by
  decide

theorem token_code (t : String) (ht : t ∈ tokens) :
    ∃ c, c < 4 ∧ ls_val t = some c ∧ code_name c = t := by
  simp only [tokens, List.mem_cons, List.mem_singleton, List.not_mem_nil, or_false] at ht
  rcases ht with rfl | rfl | rfl | rfl
  · exact ⟨0, by decide, rfl, rfl⟩
  · exact ⟨1, by decide, rfl, rfl⟩
  · exact ⟨2, by decide, rfl, rfl⟩
  · exact ⟨3, by decide, rfl, rfl⟩

theorem generate_new_ls0_ok (x i c : Nat) (s : String) (hi : i < 4) (hs : ls_val s = some c) :
    generate_new_ls0 x s i = .ok (enc x c i) := by
  have h3 : ¬ i > 3 := by omega
  simp only [generate_new_ls0, h3, if_false, hs, enc]

theorem generate_new_ls0_error (x i : Nat) (s : String) (hi : i < 4) (hs : ls_val s = none) :
    generate_new_ls0 x s i = .error ⟨1, "Invalid led string for LED" ++ fmtd i ++ "\n"⟩ := by
  have h3 : ¬ i > 3 := by omega
  simp only [generate_new_ls0, h3, if_false, hs]

theorem ls_val_none_iff (s : String) : ls_val s = none ↔ s ∉ tokens := by
  rw [ls_val_eq]
  simp only [tokens, List.mem_cons, List.mem_singleton, List.not_mem_nil, or_false]
  split_ifs <;> simp_all

theorem lines_led (r : PCA_regs) (i : Nat) (hi : i < 4) :
    (curr_regs_lines r)[6 + i]? = some (led_line i (led_mode_str (r.LS0 >>> (2 * i)))) := by
  have h : i = 0 ∨ i = 1 ∨ i = 2 ∨ i = 3 := by omega
  rcases h with rfl | rfl | rfl | rfl <;> simp [curr_regs_lines, led_line]

/-- C1: for every byte `x`, LED index `i` in 0..3 and token `t` among "ON", "Z",
"PWM0", "PWM1", `generate_new_ls0 x t i` returns a byte `r` for which the mode
name `print_curr_regs` derives for LED `i` (from the 2-bit field at offset
`2 * i`) is `t` itself, and the line printed for LED `i` shows `t`. -/
theorem generate_new_ls0_round_trip (x i : Nat) (t : String) (regs : PCA_regs)
    (hx : x < 256) (hi : i < 4) (ht : t ∈ tokens) :
    ∃ r, generate_new_ls0 x t i = .ok r ∧ led_mode_str (r >>> (2 * i)) = t ∧
      (curr_regs_lines { regs with LS0 := r })[6 + i]? = some (led_line i t) := by
  obtain ⟨c, hc, hls, hname⟩ := token_code t ht
  have hmode : led_mode_str (enc x c i >>> (2 * i)) = t := by
    rw [led_mode_str_field _ (enc_lt x hx i hi c hc) i hi, enc_field_self x hx i hi c hc, hname]
  refine ⟨enc x c i, generate_new_ls0_ok x i c t hi hls, hmode, ?_⟩
  rw [lines_led _ i hi]
  simp only [hmode]

theorem generate_new_ls0_round_trip_witness :
    ∃ r, generate_new_ls0 0x55 "PWM1" 2 = .ok r ∧ led_mode_str (r >>> (2 * 2)) = "PWM1" ∧
      (curr_regs_lines { (⟨1, 0x10, 0x20, 0x30, 0x40, 0x55⟩ : PCA_regs) with LS0 := r })[6 + 2]?
        = some (led_line 2 "PWM1") :=
  generate_new_ls0_round_trip 0x55 2 "PWM1" ⟨1, 0x10, 0x20, 0x30, 0x40, 0x55⟩
    (by decide) (by decide) (by decide)

/-- C2: for every byte `x`, LED index `i` in 0..3 and valid token `t`, the result
`r` of `generate_new_ls0 x t i` is a byte whose 2-bit fields at every offset
`2 * j`, `j` in 0..3 and `j ≠ i`, are those of `x`; `r` and `x` agree on all bits
outside the mask `0x03 << 2 * i`. -/
theorem generate_new_ls0_frame (x i : Nat) (t : String)
    (hx : x < 256) (hi : i < 4) (ht : t ∈ tokens) :
    ∃ r, generate_new_ls0 x t i = .ok r ∧ r < 256 ∧
      (∀ j, j < 4 → j ≠ i → (r >>> (2 * j)) &&& 3 = (x >>> (2 * j)) &&& 3) ∧
      r &&& (0xFF ^^^ (0x03 <<< (2 * i))) = x &&& (0xFF ^^^ (0x03 <<< (2 * i))) := by
  obtain ⟨c, hc, hls, -⟩ := token_code t ht
  exact ⟨enc x c i, generate_new_ls0_ok x i c t hi hls, enc_lt x hx i hi c hc,
    fun j hj hji => enc_field_other x hx i hi c hc j hj hji, enc_mask x hx i hi c hc⟩

theorem generate_new_ls0_frame_witness :
    ∃ r, generate_new_ls0 0xE4 "Z" 1 = .ok r ∧ r < 256 ∧
      (∀ j, j < 4 → j ≠ 1 → (r >>> (2 * j)) &&& 3 = (0xE4 >>> (2 * j)) &&& 3) ∧
      r &&& (0xFF ^^^ (0x03 <<< (2 * 1))) = 0xE4 &&& (0xFF ^^^ (0x03 <<< (2 * 1))) :=
  generate_new_ls0_frame 0xE4 1 "Z" (by decide) (by decide) (by decide)

/-- C3: for every LED index `i` in 0..3 and every string `s`, `generate_new_ls0`
returns a byte exactly when `s` is one of the literals "ON", "Z", "PWM0", "PWM1"
(compared case-sensitively); the code then placed in field `i` is 00 for "ON",
01 for "Z", 10 for "PWM0" and 11 for "PWM1"; for every other string, such as
"on", "" or "PWM2", it ends the process with status 1 after printing a line that
names LED slot `i`, and returns no byte. -/
theorem generate_new_ls0_parsing (x i : Nat) (s : String) (hx : x < 256) (hi : i < 4) :
    ((∃ r, generate_new_ls0 x s i = .ok r) ↔ s = "ON" ∨ s = "Z" ∨ s = "PWM0" ∨ s = "PWM1") ∧
    (∃ r, generate_new_ls0 x "ON" i = .ok r ∧ (r >>> (2 * i)) &&& 3 = 0b00) ∧
    (∃ r, generate_new_ls0 x "Z" i = .ok r ∧ (r >>> (2 * i)) &&& 3 = 0b01) ∧
    (∃ r, generate_new_ls0 x "PWM0" i = .ok r ∧ (r >>> (2 * i)) &&& 3 = 0b10) ∧
    (∃ r, generate_new_ls0 x "PWM1" i = .ok r ∧ (r >>> (2 * i)) &&& 3 = 0b11) ∧
    (¬ (s = "ON" ∨ s = "Z" ∨ s = "PWM0" ∨ s = "PWM1") →
      generate_new_ls0 x s i = .error ⟨1, "Invalid led string for LED" ++ toString i ++ "\n"⟩) ∧
    generate_new_ls0 x "on" i = .error ⟨1, "Invalid led string for LED" ++ toString i ++ "\n"⟩ ∧
    generate_new_ls0 x "" i = .error ⟨1, "Invalid led string for LED" ++ toString i ++ "\n"⟩ ∧
    generate_new_ls0 x "PWM2" i = .error ⟨1, "Invalid led string for LED" ++ toString i ++ "\n"⟩ := by
  have hmem : s ∈ tokens ↔ (s = "ON" ∨ s = "Z" ∨ s = "PWM0" ∨ s = "PWM1") := by
    simp only [tokens, List.mem_cons, List.mem_singleton, List.not_mem_nil, or_false]
  have hcode : ∀ c, c < 4 → ∀ t, ls_val t = some c →
      ∃ r, generate_new_ls0 x t i = .ok r ∧ (r >>> (2 * i)) &&& 3 = c := fun c hc t ht =>
    ⟨enc x c i, generate_new_ls0_ok x i c t hi ht, enc_field_self x hx i hi c hc⟩
  refine ⟨?_, hcode 0 (by decide) "ON" rfl, hcode 1 (by decide) "Z" rfl,
    hcode 2 (by decide) "PWM0" rfl, hcode 3 (by decide) "PWM1" rfl, ?_,
    generate_new_ls0_error x i "on" hi rfl, generate_new_ls0_error x i "" hi rfl,
    generate_new_ls0_error x i "PWM2" hi rfl⟩
  · rw [← hmem]
    constructor
    · rintro ⟨r, hr⟩
      by_contra hn
      rw [generate_new_ls0_error x i s hi ((ls_val_none_iff s).2 hn)] at hr
      cases hr
    · intro hs
      obtain ⟨c, -, hls, -⟩ := token_code s hs
      exact ⟨_, generate_new_ls0_ok x i c s hi hls⟩
  · intro hn
    exact generate_new_ls0_error x i s hi ((ls_val_none_iff s).2 (fun h => hn (hmem.1 h)))

theorem generate_new_ls0_parsing_witness :
    ((∃ r, generate_new_ls0 0x55 "pwm0" 3 = .ok r) ↔
      "pwm0" = "ON" ∨ "pwm0" = "Z" ∨ "pwm0" = "PWM0" ∨ "pwm0" = "PWM1") ∧
    generate_new_ls0 0x55 "pwm0" 3 = .error ⟨1, "Invalid led string for LED3\n"⟩ :=
  ⟨(generate_new_ls0_parsing 0x55 3 "pwm0" (by decide) (by decide)).1,
    (generate_new_ls0_parsing 0x55 3 "pwm0" (by decide) (by decide)).2.2.2.2.2.1 (by decide)⟩

/-! ### The device session -/

@[simp]
theorem printf_calls (w : World) (l : String) : (printf w l).calls = w.calls := rfl
@[simp]
theorem printf_curr_regs (w : World) (l : String) :
    (printf w l).curr_regs = w.curr_regs := rfl
@[simp]
theorem printf_stdout (w : World) (l : String) :
    (printf w l).stdout = w.stdout ++ [l] := rfl
@[simp]
theorem printf_bus (w : World) (l : String) : (printf w l).bus = w.bus := rfl
@[simp]
theorem printf_readBuf (w : World) (l : String) :
    (printf w l).readBuf = w.readBuf := rfl

@[simp]
theorem print_curr_regs_calls (w : World) : (print_curr_regs w).calls = w.calls := rfl
@[simp]
theorem print_curr_regs_curr_regs (w : World) :
    (print_curr_regs w).curr_regs = w.curr_regs := rfl
@[simp]
theorem print_curr_regs_stdout (w : World) :
    (print_curr_regs w).stdout = w.stdout ++ curr_regs_lines w.curr_regs := rfl

@[simp]
theorem write_reg_calls (w : World) (l : Option String) (c v : Nat) :
    (write_reg w l c v).calls = w.calls ++ [Syscall.sys_write [c, v]] := by
  cases l <;> rfl

@[simp]
theorem write_reg_curr_regs (w : World) (l : Option String) (c v : Nat) :
    (write_reg w l c v).curr_regs = w.curr_regs := by
  cases l <;> rfl

@[simp]
theorem write_reg_stdout (w : World) (l : Option String) (c v : Nat) :
    (write_reg w l c v).stdout = w.stdout ++ l.toList := by
  cases l <;> simp [write_reg, write, printf]

theorem get_curr_regs_calls (w : World) :
    (get_curr_regs w).calls = w.calls ++
      [Syscall.sys_write [0x10], Syscall.sys_read 6, Syscall.sys_write [0x00],
        Syscall.sys_read 1] := by
  simp [get_curr_regs, write, read, List.range_succ]

theorem get_curr_regs_stdout (w : World) : (get_curr_regs w).stdout = w.stdout := rfl

theorem get_curr_regs_bank (w : World) :
    (get_curr_regs w).curr_regs =
      { INPUT := read_into w.bus[3]? 1 (read_into w.bus[1]? 6 w.readBuf) 0,
        PSC0 := read_into w.bus[1]? 6 w.readBuf 1,
        PWM0 := read_into w.bus[1]? 6 w.readBuf 2,
        PSC1 := read_into w.bus[1]? 6 w.readBuf 3,
        PWM1 := read_into w.bus[1]? 6 w.readBuf 4,
        LS0 := read_into w.bus[1]? 6 w.readBuf 5 } := by
  have h1 : w.bus.tail.head? = w.bus[1]? := by
    generalize w.bus = l
    rcases l with _ | ⟨a, _ | ⟨b, l⟩⟩ <;> simp
  have h3 : w.bus.tail.tail.tail.head? = w.bus[3]? := by
    generalize w.bus = l
    rcases l with _ | ⟨a, _ | ⟨b, _ | ⟨c, _ | ⟨d, l⟩⟩⟩⟩ <;> simp
  simp only [get_curr_regs, write, read, h1, h3]

theorem main_regs_count (args : arguments) (w : World) :
    (main_regs args w).1 = requested args := by
  unfold main_regs requested
  split_ifs <;> rfl

theorem main_regs_calls (args : arguments) (w : World) :
    (main_regs args w).2.calls = w.calls ++ (reg_frames args).map Syscall.sys_write := by
  unfold main_regs reg_frames
  split_ifs <;> simp

theorem main_regs_curr_regs (args : arguments) (w : World) :
    (main_regs args w).2.curr_regs = w.curr_regs := by
  unfold main_regs
  split_ifs <;> simp

theorem reg_frames_length (args : arguments) : (reg_frames args).length = requested args := by
  unfold reg_frames requested
  split_ifs <;> rfl

theorem requested_le (args : arguments) : requested args ≤ 4 := by
  unfold requested
  split_ifs <;> decide

/-! ### Folding the LED requests -/

theorem led_step_cases (x : Nat) (o : Option String) (i : Nat) (hi : i < 4) :
    (o = none ∧ led_step x o i = .ok x) ∨
    (∃ s c, o = some s ∧ s ∈ tokens ∧ c < 4 ∧ ls_val s = some c ∧
      led_step x o i = .ok (enc x c i)) ∨
    (∃ s, o = some s ∧ s ∉ tokens ∧
      led_step x o i = .error ⟨1, "Invalid led string for LED" ++ fmtd i ++ "\n"⟩) := by
  cases o with
  | none => exact Or.inl ⟨rfl, rfl⟩
  | some s =>
    by_cases hs : s ∈ tokens
    · obtain ⟨c, hc, hls, -⟩ := token_code s hs
      exact Or.inr (Or.inl ⟨s, c, rfl, hs, hc, hls, generate_new_ls0_ok x i c s hi hls⟩)
    · exact Or.inr (Or.inr ⟨s, rfl, hs,
        generate_new_ls0_error x i s hi ((ls_val_none_iff s).2 hs)⟩)

theorem main_leds_eq_fold (args : arguments) (x : Nat) :
    main_leds args x = fold_in_order args [0, 1, 2, 3] x := by
  simp only [main_leds, fold_in_order, slot, bind, Except.bind, pure, Except.pure]
  cases led_step x args.led0_str 0 with
  | error f => rfl
  | ok a =>
    dsimp only
    cases led_step a args.led1_str 1 with
    | error f => rfl
    | ok b =>
      dsimp only
      cases led_step b args.led2_str 2 with
      | error f => rfl
      | ok c =>
        dsimp only
        cases led_step c args.led3_str 3 <;> rfl

/-- Folding valid requests over duplicate-free slots: the result is a byte whose
fields are the requested codes on the folded slots and the old fields elsewhere. -/
theorem fold_in_order_fields (args : arguments) (hv : valid_leds args) :
    ∀ (order : List Nat) (x : Nat), x < 256 → order.Nodup → (∀ i ∈ order, i < 4) →
      ∃ r, fold_in_order args order x = .ok r ∧ r < 256 ∧
        ∀ j, j < 4 →
          (j ∈ order → ∀ t, slot args j = some t → ls_val t = some (field j r)) ∧
          ((j ∉ order ∨ slot args j = none) → field j r = field j x) := by
  intro order
  induction order with
  | nil =>
    intro x hx _ _
    exact ⟨x, rfl, hx, fun j _ => ⟨fun h => absurd h (List.not_mem_nil j), fun _ => rfl⟩⟩
  | cons i rest ih =>
    intro x hx hnd hlt
    have hi : i < 4 := hlt i (List.mem_cons_self i rest)
    have hirest : i ∉ rest := (List.nodup_cons.1 hnd).1
    have hstep : ∃ y, led_step x (slot args i) i = .ok y ∧ y < 256 ∧
        (∀ t, slot args i = some t → ls_val t = some (field i y)) ∧
        (slot args i = none → y = x) ∧
        (∀ j, j < 4 → j ≠ i → field j y = field j x) := by
      rcases led_step_cases x (slot args i) i hi with ⟨ho, h⟩ | ⟨s, c, ho, -, hc, hls, h⟩ |
        ⟨s, ho, hs, -⟩
      · exact ⟨x, h, hx, fun t ht => (by rw [ho] at ht; cases ht), fun _ => rfl,
          fun _ _ _ => rfl⟩
      · refine ⟨enc x c i, h, enc_lt x hx i hi c hc, ?_, ?_,
          fun j hj hji => enc_field_other x hx i hi c hc j hj hji⟩
        · intro t ht
          rw [ho] at ht
          cases ht
          rw [enc_field_self x hx i hi c hc]
          exact hls
        · intro hnone
          rw [ho] at hnone
          cases hnone
      · exact absurd (hv i hi s ho) hs
    obtain ⟨y, hy, hy256, hyself, hynone, hyother⟩ := hstep
    obtain ⟨r, hr, hr256, hfields⟩ :=
      ih y hy256 (List.nodup_cons.1 hnd).2 (fun k hk => hlt k (List.mem_cons_of_mem i hk))
    refine ⟨r, ?_, hr256, ?_⟩
    · simp only [fold_in_order, hy]
      exact hr
    · intro j hj
      by_cases hji : j = i
      · subst hji
        have hjr : field j r = field j y := (hfields j hj).2 (Or.inl hirest)
        refine ⟨fun _ t ht => by rw [hjr]; exact hyself t ht, ?_⟩
        rintro (hnot | hnone)
        · exact absurd (List.mem_cons_self j rest) hnot
        · rw [hjr, hynone hnone]
      · constructor
        · intro hmem t ht
          exact (hfields j hj).1 ((List.mem_cons.1 hmem).resolve_left hji) t ht
        · rintro (hnot | hnone)
          · rw [(hfields j hj).2 (Or.inl (fun h => hnot (List.mem_cons_of_mem i h)))]
            exact hyother j hj hji
          · rw [(hfields j hj).2 (Or.inr hnone)]
            exact hyother j hj hji

theorem byte_of_fields : ∀ r < 256,
    r = field 0 r + 4 * field 1 r + 16 * field 2 r + 64 * field 3 r := by
  decide

theorem byte_ext (r s : Nat) (hr : r < 256) (hs : s < 256)
    (h : ∀ j, j < 4 → field j r = field j s) : r = s := by
  rw [byte_of_fields r hr, byte_of_fields s hs, h 0 (by decide), h 1 (by decide),
    h 2 (by decide), h 3 (by decide)]

theorem main_leds_valid (args : arguments) (hv : valid_leds args) (x : Nat) :
    ∃ r, main_leds args x = .ok r := by
  rw [main_leds_eq_fold]
  have hstep : ∀ (y i : Nat), i < 4 → ∃ z, led_step y (slot args i) i = .ok z := by
    intro y i hi
    rcases led_step_cases y (slot args i) i hi with ⟨-, h⟩ | ⟨s, c, -, -, -, -, h⟩ | ⟨s, ho, hs, -⟩
    · exact ⟨_, h⟩
    · exact ⟨_, h⟩
    · exact absurd (hv i hi s ho) hs
  obtain ⟨a, ha⟩ := hstep x 0 (by decide)
  obtain ⟨b, hb⟩ := hstep a 1 (by decide)
  obtain ⟨c, hc⟩ := hstep b 2 (by decide)
  obtain ⟨d, hd⟩ := hstep c 3 (by decide)
  exact ⟨d, by simp only [fold_in_order, ha, hb, hc, hd]⟩

theorem main_leds_invalid (args : arguments) (x : Nat)
    (hbad : ∃ i, i < 4 ∧ ∃ s, slot args i = some s ∧ s ∉ tokens) :
    ∃ k, k < 4 ∧ (∃ s, slot args k = some s ∧ s ∉ tokens) ∧
      (∀ j, j < k → ∀ s, slot args j = some s → s ∈ tokens) ∧
      main_leds args x = .error ⟨1, "Invalid led string for LED" ++ fmtd k ++ "\n"⟩ := by
  rw [main_leds_eq_fold]
  have hgood : ∀ (y i : Nat), i < 4 →
      (∀ s, slot args i = some s → s ∈ tokens) ∧ (∃ z, led_step y (slot args i) i = .ok z) ∨
      (∃ s, slot args i = some s ∧ s ∉ tokens) ∧
        led_step y (slot args i) i = .error ⟨1, "Invalid led string for LED" ++ fmtd i ++ "\n"⟩ := by
    intro y i hi
    rcases led_step_cases y (slot args i) i hi with ⟨ho, h⟩ | ⟨s, c, ho, hs, -, -, h⟩ | ⟨s, ho, hs, h⟩
    · exact Or.inl ⟨fun s hs => (by rw [ho] at hs; cases hs), _, h⟩
    · exact Or.inl ⟨fun t ht => (by rw [ho] at ht; cases ht; exact hs), _, h⟩
    · exact Or.inr ⟨⟨s, ho, hs⟩, h⟩
  rcases hgood x 0 (by decide) with ⟨v0, a, ha⟩ | ⟨b0, e0⟩
  · rcases hgood a 1 (by decide) with ⟨v1, b, hb⟩ | ⟨b1, e1⟩
    · rcases hgood b 2 (by decide) with ⟨v2, c, hc⟩ | ⟨b2, e2⟩
      · rcases hgood c 3 (by decide) with ⟨v3, d, hd⟩ | ⟨b3, e3⟩
        · exfalso
          obtain ⟨i, hi, s, hs, hns⟩ := hbad
          have h : i = 0 ∨ i = 1 ∨ i = 2 ∨ i = 3 := by omega
          rcases h with rfl | rfl | rfl | rfl
          · exact hns (v0 s hs)
          · exact hns (v1 s hs)
          · exact hns (v2 s hs)
          · exact hns (v3 s hs)
        · refine ⟨3, by decide, b3, ?_, by simp only [fold_in_order, ha, hb, hc, e3]⟩
          intro j hj
          have h : j = 0 ∨ j = 1 ∨ j = 2 := by omega
          rcases h with rfl | rfl | rfl
          · exact v0
          · exact v1
          · exact v2
      · refine ⟨2, by decide, b2, ?_, by simp only [fold_in_order, ha, hb, e2]⟩
        intro j hj
        have h : j = 0 ∨ j = 1 := by omega
        rcases h with rfl | rfl
        · exact v0
        · exact v1
    · refine ⟨1, by decide, b1, ?_, by simp only [fold_in_order, ha, e1]⟩
      intro j hj
      have h : j = 0 := by omega
      subst h
      exact v0
  · exact ⟨0, by decide, b0, fun j hj => absurd hj (Nat.not_lt_zero j),
      by simp only [fold_in_order, e0]⟩

/-! ### The apply phase and the whole run -/

theorem main_apply_ok (args : arguments) (w : World) (r : Nat)
    (h : main_leds args w.curr_regs.LS0 = .ok r) :
    main_apply args w =
      if r ≠ w.curr_regs.LS0 then
        (.reached (requested args + 1) r, write_reg (main_regs args w).2 none 0b00000101 r)
      else (.reached (requested args) r, (main_regs args w).2) := by
  have hn := main_regs_count args w
  have hregs := main_regs_curr_regs args w
  have hle := requested_le args
  have hu : u8 (requested args + 1) = requested args + 1 := by
    unfold u8
    omega
  unfold main_apply
  rcases hm : main_regs args w with ⟨n, w1⟩
  rw [hm] at hn hregs
  simp only at hn hregs
  subst hn
  simp only [hregs, h, hu]

theorem main_apply_error (args : arguments) (w : World) (f : Fatal)
    (h : main_leds args w.curr_regs.LS0 = .error f) :
    main_apply args w = (.exited f, printf (main_regs args w).2 f.message) := by
  have hregs := main_regs_curr_regs args w
  unfold main_apply
  rcases hm : main_regs args w with ⟨n, w1⟩
  rw [hm] at hregs
  simp only at hregs
  simp only [hregs, h]

theorem main_open_calls (args : arguments) (w : World) :
    (main_open args w).calls = w.calls ++
      [Syscall.sys_open (if args.i2cbus = 1 then "/dev/i2c-1" else "/dev/i2c-0"),
        Syscall.sys_ioctl args.PCA_i2c_address,
        Syscall.sys_write [0x10], Syscall.sys_read 6, Syscall.sys_write [0x00],
        Syscall.sys_read 1] := by
  unfold main_open
  split_ifs <;> simp [get_curr_regs_calls]

theorem main_finish_calls (n : Nat) (w : World) :
    (main_finish n w).calls = w.calls ++
      (if n ≠ 0 then
        [Syscall.sys_write [0x10], Syscall.sys_read 6, Syscall.sys_write [0x00],
          Syscall.sys_read 1]
      else []) ++ [Syscall.sys_close] := by
  unfold main_finish
  split_ifs <;> simp [get_curr_regs_calls]

theorem field_lt (j x : Nat) : field j x < 4 := by
  unfold field
  have h := @Nat.and_le_right (x >>> (2 * j)) 3
  omega

theorem ls_val_code_name : ∀ c < 4, ls_val (code_name c) = some c := by
  decide

theorem main_leds_none (args : arguments) (x : Nat) (h : ∀ i, i < 4 → slot args i = none) :
    main_leds args x = .ok x := by
  have h0 : args.led0_str = none := h 0 (by decide)
  have h1 : args.led1_str = none := h 1 (by decide)
  have h2 : args.led2_str = none := h 2 (by decide)
  have h3 : args.led3_str = none := h 3 (by decide)
  rw [main_leds_eq_fold]
  simp only [fold_in_order, slot, h0, h1, h2, h3, led_step]

theorem perm_slots (order : List Nat) (h : order.Perm [0, 1, 2, 3]) :
    order.Nodup ∧ (∀ i ∈ order, i < 4) ∧ ∀ j, j < 4 → j ∈ order := by
  refine ⟨h.nodup_iff.2 (by decide), ?_, ?_⟩
  · intro i hi
    have := h.mem_iff.1 hi
    simp only [List.mem_cons, List.mem_singleton, List.not_mem_nil, or_false] at this
    omega
  · intro j hj
    apply h.mem_iff.2
    simp only [List.mem_cons, List.mem_singleton, List.not_mem_nil, or_false]
    omega

/-- Folding valid requests in any order of the four slots from a byte `x`. -/
theorem fold_perm_fields (args : arguments) (hv : valid_leds args) (x : Nat) (hx : x < 256)
    (order : List Nat) (h : order.Perm [0, 1, 2, 3]) :
    ∃ r, fold_in_order args order x = .ok r ∧ r < 256 ∧
      ∀ j, j < 4 → (∀ t, slot args j = some t → ls_val t = some (field j r)) ∧
        (slot args j = none → field j r = field j x) := by
  obtain ⟨hnd, hlt, hall⟩ := perm_slots order h
  obtain ⟨r, hr, hr256, hf⟩ := fold_in_order_fields args hv order x hx hnd hlt
  exact ⟨r, hr, hr256, fun j hj => ⟨(hf j hj).1 (hall j hj), fun hn => (hf j hj).2 (Or.inr hn)⟩⟩

/-- C4: for every register bank and every request whose LED tokens are valid,
the apply phase of `main` ends with `changes_made` equal to the number of
psc0/psc1/pwm0/pwm1 values requested plus 1 if the folded byte differs from the
current `LS0` (plus 0 otherwise), and that is the number of register writes it
issued; an empty request issues none and leaves the byte unchanged, a request of
only psc0 and pwm1 issues exactly those two writes, and LED flags that re-state
the modes already in `LS0` cause no `LS0` write. -/
theorem apply_write_count (args : arguments) (w : World) (hv : valid_leds args) :
    ∃ new_ls0 frames,
      main_leds args w.curr_regs.LS0 = .ok new_ls0 ∧
      (main_apply args w).1 =
        .reached (requested args + (if new_ls0 ≠ w.curr_regs.LS0 then 1 else 0)) new_ls0 ∧
      (main_apply args w).2.calls = w.calls ++ frames.map Syscall.sys_write ∧
      frames.length = requested args + (if new_ls0 ≠ w.curr_regs.LS0 then 1 else 0) ∧
      (requested args = 0 → (∀ i, i < 4 → slot args i = none) →
        new_ls0 = w.curr_regs.LS0 ∧ frames = []) ∧
      (args.psc0_inuse ≠ 0 → args.pwm1_inuse ≠ 0 → args.psc1_inuse = 0 →
        args.pwm0_inuse = 0 → (∀ i, i < 4 → slot args i = none) →
        frames = [[0x01, args.psc0], [0x04, args.pwm1]]) ∧
      (w.curr_regs.LS0 < 256 →
        (∀ i, i < 4 → ∀ t, slot args i = some t →
          t = led_mode_str (w.curr_regs.LS0 >>> (2 * i))) →
        new_ls0 = w.curr_regs.LS0 ∧ frames.length = requested args) := by
  obtain ⟨r, hr⟩ := main_leds_valid args hv w.curr_regs.LS0
  have hnone : (∀ i, i < 4 → slot args i = none) → r = w.curr_regs.LS0 := by
    intro h
    rw [main_leds_none args _ h] at hr
    cases hr
    rfl
  have hsame : w.curr_regs.LS0 < 256 →
      (∀ i, i < 4 → ∀ t, slot args i = some t →
        t = led_mode_str (w.curr_regs.LS0 >>> (2 * i))) → r = w.curr_regs.LS0 := by
    intro hx hre
    obtain ⟨r2, hr2, hr256, hf⟩ :=
      fold_perm_fields args hv _ hx [0, 1, 2, 3] (List.Perm.refl _)
    rw [← main_leds_eq_fold, hr] at hr2
    cases hr2
    apply byte_ext r _ hr256 hx
    intro j hj
    cases hs : slot args j with
    | none => exact (hf j hj).2 hs
    | some t =>
      have h1 := (hf j hj).1 t hs
      have h2 := hre j hj t hs
      rw [led_mode_str_field _ hx j hj] at h2
      rw [h2, ls_val_code_name _ (field_lt j _)] at h1
      exact (Option.some.inj h1).symm
  by_cases hch : r ≠ w.curr_regs.LS0
  · refine ⟨r, reg_frames args ++ [[0b00000101, r]], hr, ?_, ?_, ?_, ?_, ?_, ?_⟩
    · rw [main_apply_ok args w r hr, if_pos hch, if_pos hch]
    · rw [main_apply_ok args w r hr, if_pos hch]
      simp only [write_reg_calls, main_regs_calls, List.map_append,
        List.map_cons, List.map_nil, List.append_assoc]
    · rw [if_pos hch]
      simp only [List.length_append, reg_frames_length, List.length_cons,
        List.length_nil]
    · intro _ h
      exact absurd (hnone h) hch
    · intro _ _ _ _ h
      exact absurd (hnone h) hch
    · intro hx hre
      exact absurd (hsame hx hre) hch
  · have heq : r = w.curr_regs.LS0 := not_not.1 hch
    refine ⟨r, reg_frames args, hr, ?_, ?_, ?_, ?_, ?_, ?_⟩
    · rw [main_apply_ok args w r hr, if_neg hch, if_neg hch]
      rfl
    · rw [main_apply_ok args w r hr, if_neg hch]
      exact main_regs_calls args w
    · rw [if_neg hch]
      exact reg_frames_length args
    · intro h0 _
      refine ⟨heq, ?_⟩
      apply List.eq_nil_of_length_eq_zero
      rw [reg_frames_length, h0]
    · intro h0 h1 h2 h3 _
      simp only [reg_frames, h0, h1, h2, h3, ne_eq, not_true_eq_false, not_false_eq_true,
        if_true, if_false, List.append_nil, List.nil_append, List.cons_append]
    · intro _ _
      exact ⟨heq, reg_frames_length args⟩

theorem apply_write_count_witness :
    ∃ new_ls0 frames,
      main_leds psc0_pwm1_request (get_curr_regs (init_world demo_bus)).curr_regs.LS0
        = .ok new_ls0 ∧
      (main_apply psc0_pwm1_request (get_curr_regs (init_world demo_bus))).1
        = .reached 2 new_ls0 ∧
      new_ls0 = 0x55 ∧ frames = [[0x01, 0x20], [0x04, 0x80]] ∧ frames.length = 2 ∧
      (main_apply psc0_pwm1_request (get_curr_regs (init_world demo_bus))).2.calls =
        (get_curr_regs (init_world demo_bus)).calls ++ frames.map Syscall.sys_write := by
  have hnone : ∀ i, i < 4 → slot psc0_pwm1_request i = none := by decide
  obtain ⟨n, fr, h1, h2, h3, -, -, h6, h7⟩ :=
    apply_write_count psc0_pwm1_request (get_curr_regs (init_world demo_bus))
      (fun i hi s hs => by rw [hnone i hi] at hs; cases hs)
  have hn : n = 0x55 :=
    (h7 (by decide) (fun i hi t ht => by rw [hnone i hi] at ht; cases ht)).1
  have hf : fr = [[0x01, 0x20], [0x04, 0x80]] :=
    h6 (by decide) (by decide) (by decide) (by decide) hnone
  subst hn
  subst hf
  exact ⟨_, _, h1, h2, rfl, rfl, rfl, h3⟩

/-- C5: when the first read is answered by six bytes `b0 .. b5` and the second
by one byte `c`, `get_curr_regs` issues exactly write (1 byte), read 6, write
(1 byte), read 1 and leaves the bank PSC0 = b1, PWM0 = b2, PSC1 = b3, PWM1 = b4,
LS0 = b5, INPUT = c, with `b0` unused; for the replies 00 10 20 30 40 55 and 01
the bank is psc0 = 0x10, pwm0 = 0x20, psc1 = 0x30, pwm1 = 0x40, ledSelect = 0x55,
input = 0x01 and every LED is printed as "Z". -/
theorem get_curr_regs_mapping (w : World) (b0 b1 b2 b3 b4 b5 c : Nat)
    (o1 o3 : Option (List Nat)) (rest : List (Option (List Nat)))
    (hbus : w.bus = o1 :: some [b0, b1, b2, b3, b4, b5] :: o3 :: some [c] :: rest) :
    (∃ c1 c2, (get_curr_regs w).calls = w.calls ++
      [Syscall.sys_write [c1], Syscall.sys_read 6, Syscall.sys_write [c2],
        Syscall.sys_read 1]) ∧
    (get_curr_regs w).curr_regs =
      { INPUT := c, PSC0 := b1, PWM0 := b2, PSC1 := b3, PWM1 := b4, LS0 := b5 } ∧
    (b1 = 0x10 → b2 = 0x20 → b3 = 0x30 → b4 = 0x40 → b5 = 0x55 → c = 0x01 →
      (get_curr_regs w).curr_regs =
        { INPUT := 0x01, PSC0 := 0x10, PWM0 := 0x20, PSC1 := 0x30, PWM1 := 0x40,
          LS0 := 0x55 } ∧
      ∀ i, i < 4 →
        led_mode_str ((get_curr_regs w).curr_regs.LS0 >>> (2 * i)) = "Z" ∧
        (curr_regs_lines (get_curr_regs w).curr_regs)[6 + i]? = some (led_line i "Z")) := by
  have hbank : (get_curr_regs w).curr_regs =
      { INPUT := c, PSC0 := b1, PWM0 := b2, PSC1 := b3, PWM1 := b4, LS0 := b5 } := by
    rw [get_curr_regs_bank, hbus]
    simp [read_into, blit]
  refine ⟨⟨0x10, 0x00, get_curr_regs_calls w⟩, hbank, ?_⟩
  rintro rfl rfl rfl rfl rfl rfl
  refine ⟨hbank, fun i hi => ?_⟩
  have hz : led_mode_str ((get_curr_regs w).curr_regs.LS0 >>> (2 * i)) = "Z" := by
    rw [hbank]
    have h : i = 0 ∨ i = 1 ∨ i = 2 ∨ i = 3 := by omega
    rcases h with rfl | rfl | rfl | rfl <;> rfl
  refine ⟨hz, ?_⟩
  rw [lines_led _ i hi, hz]

theorem get_curr_regs_mapping_witness :
    (get_curr_regs (init_world demo_bus)).curr_regs =
      { INPUT := 0x01, PSC0 := 0x10, PWM0 := 0x20, PSC1 := 0x30, PWM1 := 0x40,
        LS0 := 0x55 } :=
  (get_curr_regs_mapping (init_world demo_bus) 0x00 0x10 0x20 0x30 0x40 0x55 0x01
    (some []) (some []) [] rfl).2.1

/-- C6: for every request, the frames the apply phase of `main` writes to the
bus are, in this order and with absent requests skipped, [0x01, psc0],
[0x03, psc1], [0x02, pwm0], [0x04, pwm1], followed by [0x05, new_ls0] when the
folded byte differs from the current `LS0`; every frame is two bytes (command,
value), the five commands are pairwise distinct and none has bit 0x10 set. -/
theorem apply_frames (args : arguments) (w : World) :
    (main_apply args w).2.calls = w.calls ++
      (((if args.psc0_inuse ≠ 0 then [[0x01, args.psc0]] else []) ++
        (if args.psc1_inuse ≠ 0 then [[0x03, args.psc1]] else []) ++
        (if args.pwm0_inuse ≠ 0 then [[0x02, args.pwm0]] else []) ++
        (if args.pwm1_inuse ≠ 0 then [[0x04, args.pwm1]] else []) ++
        (match main_leds args w.curr_regs.LS0 with
          | .ok new_ls0 => if new_ls0 ≠ w.curr_regs.LS0 then [[0x05, new_ls0]] else []
          | .error _ => [])).map Syscall.sys_write) ∧
    (∀ s, Syscall.sys_write s ∈ (main_apply args w).2.calls.drop w.calls.length →
      ∃ command value, s = [command, value] ∧ command ∈ [0x01, 0x03, 0x02, 0x04, 0x05] ∧
        command &&& 0x10 = 0) ∧
    [0x01, 0x03, 0x02, 0x04, 0x05].Nodup := by
  have hcalls : (main_apply args w).2.calls = w.calls ++
      ((reg_frames args ++
        (match main_leds args w.curr_regs.LS0 with
          | .ok new_ls0 => if new_ls0 ≠ w.curr_regs.LS0 then [[0x05, new_ls0]] else []
          | .error _ => [])).map Syscall.sys_write) := by
    cases hl : main_leds args w.curr_regs.LS0 with
    | error f =>
      rw [main_apply_error args w f hl]
      simp only [printf_calls, main_regs_calls, List.append_nil]
    | ok r =>
      rw [main_apply_ok args w r hl]
      by_cases hch : r ≠ w.curr_regs.LS0
      · rw [if_pos hch]
        simp only [if_pos hch, write_reg_calls, main_regs_calls, List.map_append,
          List.map_cons, List.map_nil, List.append_assoc]
      · rw [if_neg hch]
        simp only [if_neg hch, main_regs_calls, List.append_nil]
  refine ⟨hcalls, ?_, by decide⟩
  intro s hs
  rw [hcalls, List.drop_left] at hs
  simp only [List.mem_map, Syscall.sys_write.injEq, exists_eq_right, List.mem_append] at hs
  rcases hs with hs | hs
  · unfold reg_frames at hs
    simp only [List.mem_append] at hs
    rcases hs with ((hs | hs) | hs) | hs <;> split_ifs at hs <;>
      simp only [List.mem_singleton, List.not_mem_nil] at hs <;>
      exact ⟨_, _, hs, by decide, by decide⟩
  · cases hl : main_leds args w.curr_regs.LS0 with
    | error f =>
      rw [hl] at hs
      simp only [List.not_mem_nil] at hs
    | ok r =>
      rw [hl] at hs
      simp only at hs
      split_ifs at hs
      · simp only [List.mem_singleton] at hs
        exact ⟨_, _, hs, by decide, by decide⟩
      · simp only [List.not_mem_nil] at hs

theorem main_valid (args : arguments) (w : World) (hv : valid_leds args) :
    (main args w).status = 0 ∧ (main args w).world.calls.getLast? = some Syscall.sys_close := by
  obtain ⟨r, hr⟩ := main_leds_valid args hv (main_open args w).curr_regs.LS0
  unfold main
  simp only [main_apply_ok args (main_open args w) r hr]
  split_ifs <;> simp [main_finish_calls]

/-- C7 fails as stated: with `-s 0x20 -l on` the run ends with status 1 only
after the bus was opened, the registers were read and PSC0 was written. -/
theorem config_error_after_hardware_access :
    (∃ s, slot bad_led_request 0 = some s ∧ s ∉ tokens) ∧
    (main bad_led_request (init_world demo_bus)).status = 1 ∧
    (main bad_led_request (init_world demo_bus)).world.calls =
      [Syscall.sys_open "/dev/i2c-1", Syscall.sys_ioctl 0x62,
        Syscall.sys_write [0x10], Syscall.sys_read 6, Syscall.sys_write [0x00],
        Syscall.sys_read 1, Syscall.sys_write [0x01, 0x20]] ∧
    Syscall.sys_read 6 ∈ (main bad_led_request (init_world demo_bus)).world.calls ∧
    Syscall.sys_write [0x01, 0x20] ∈ (main bad_led_request (init_world demo_bus)).world.calls := by
  refine ⟨⟨"on", rfl, by decide⟩, rfl, rfl, ?_, ?_⟩ <;> decide

/-- C7, amended: in every run in which `argp_parse` returns to `main`, so that
the bus id is 0 or 1 (`parse_opt`, lines 85-89, ends the process in `argp_usage`
for any other), and in which some LED string left in the arguments by `-l`,
`-m`, `-n` or `-o` is outside "ON", "Z", "PWM0", "PWM1", the program ends with
exit status 1 after it opened the bus of that id, selected the address, read the
registers and issued the requested psc0/psc1/pwm0/pwm1 writes; it issues no
`LS0` write, no second read and no close, and the last line it prints names the
first invalid LED slot. -/
theorem config_error_run (args : arguments) (w : World)
    (hbus : args.i2cbus ≤ 1)
    (hbad : ∃ i, i < 4 ∧ ∃ s, slot args i = some s ∧ s ∉ tokens) :
    (main args w).status = 1 ∧
    (main args w).world.calls = w.calls ++
      [Syscall.sys_open ("/dev/i2c-" ++ toString args.i2cbus),
        Syscall.sys_ioctl args.PCA_i2c_address,
        Syscall.sys_write [0x10], Syscall.sys_read 6, Syscall.sys_write [0x00],
        Syscall.sys_read 1] ++ (reg_frames args).map Syscall.sys_write ∧
    ∃ k, k < 4 ∧ (∃ s, slot args k = some s ∧ s ∉ tokens) ∧
      (∀ j, j < k → ∀ s, slot args j = some s → s ∈ tokens) ∧
      (main args w).world.stdout.getLast? =
        some ("Invalid led string for LED" ++ toString k ++ "\n") := by
  obtain ⟨k, hk, hkbad, hfirst, hf⟩ :=
    main_leds_invalid args (main_open args w).curr_regs.LS0 hbad
  have hmain : main args w =
      ⟨1, printf (main_regs args (main_open args w)).2
        ("Invalid led string for LED" ++ fmtd k ++ "\n")⟩ := by
    unfold main
    simp only [main_apply_error args (main_open args w) _ hf]
  refine ⟨by rw [hmain], ?_, k, hk, hkbad, hfirst, ?_⟩
  · have hpath : (if args.i2cbus = 1 then "/dev/i2c-1" else "/dev/i2c-0") =
        "/dev/i2c-" ++ toString args.i2cbus := by
      have h : args.i2cbus = 0 ∨ args.i2cbus = 1 := by omega
      rcases h with h | h <;> rw [h] <;> rfl
    rw [hmain]
    simp only [printf_calls, main_regs_calls, main_open_calls, hpath]
  · rw [hmain]
    simp only [printf_stdout, List.getLast?_append, List.getLast?_singleton, Option.or_some,
      fmtd]

theorem config_error_run_witness :
    bad_led_request.i2cbus ≤ 1 ∧
    (main bad_led_request (init_world demo_bus)).status = 1 ∧
    (main bad_led_request (init_world demo_bus)).world.calls =
      [] ++ [Syscall.sys_open ("/dev/i2c-" ++ toString bad_led_request.i2cbus),
        Syscall.sys_ioctl bad_led_request.PCA_i2c_address,
        Syscall.sys_write [0x10], Syscall.sys_read 6, Syscall.sys_write [0x00],
        Syscall.sys_read 1] ++ (reg_frames bad_led_request).map Syscall.sys_write :=
  ⟨by decide,
    (config_error_run bad_led_request (init_world demo_bus) (by decide)
      ⟨0, by decide, "on", rfl, by decide⟩).1,
    (config_error_run bad_led_request (init_world demo_bus) (by decide)
      ⟨0, by decide, "on", rfl, by decide⟩).2.1⟩

/-- C8 fails as stated: when every transport call after the first register read
fails, the second `get_curr_regs` still fills the bank from the stale buffer, the
run prints it as the new status and ends with status 0; and a failed second read
alone leaves INPUT taken from the buffer of the first read. -/
theorem failed_transport_not_aborted :
    (main psc0_pwm1_request (init_world fading_bus)).status = 0 ∧
    (main psc0_pwm1_request (init_world fading_bus)).world.calls =
      [Syscall.sys_open "/dev/i2c-1", Syscall.sys_ioctl 0x62,
        Syscall.sys_write [0x10], Syscall.sys_read 6, Syscall.sys_write [0x00],
        Syscall.sys_read 1, Syscall.sys_write [0x01, 0x20], Syscall.sys_write [0x04, 0x80],
        Syscall.sys_write [0x10], Syscall.sys_read 6, Syscall.sys_write [0x00],
        Syscall.sys_read 1, Syscall.sys_close] ∧
    (main psc0_pwm1_request (init_world fading_bus)).world.curr_regs =
      { INPUT := 0x01, PSC0 := 0x10, PWM0 := 0x20, PSC1 := 0x30, PWM1 := 0x40,
        LS0 := 0x55 } ∧
    (main psc0_pwm1_request (init_world fading_bus)).world.stdout.drop 13 =
      ["New Register Status:\n", "  INPUT  0x01 (read-only)\n",
        "  PSC0   0x10 (use -s to set)\n", "  PWM0   0x20 (use -p to set)\n",
        "  PSC1   0x30 (use -t to set)\n", "  PWM1   0x40 (use -q to set)\n",
        "  LS0    0x55\n", "    LED0    Z (use -l to set)\n",
        "    LED1    Z (use -m to set)\n", "    LED2    Z (use -n to set)\n",
        "    LED3    Z (use -o to set)\n"] ∧
    (get_curr_regs (init_world
        [some [], some [0xAA, 0x10, 0x20, 0x30, 0x40, 0x55], some [], none])).curr_regs =
      { INPUT := 0xAA, PSC0 := 0x10, PWM0 := 0x20, PSC1 := 0x30, PWM1 := 0x40,
        LS0 := 0x55 } := by
  refine ⟨rfl, rfl, rfl, ?_, rfl⟩
  decide

/-- C8, amended: `get_curr_regs` discards the result of every transport call.
Whatever calls fail, it issues all four calls in order and fills the bank from
the read buffer, in which a failed read leaves the previous contents; no error
is raised, and a run with valid LED tokens goes on to its end with status 0. -/
theorem get_curr_regs_ignores_failures (w : World) :
    (get_curr_regs w).calls = w.calls ++
      [Syscall.sys_write [0x10], Syscall.sys_read 6, Syscall.sys_write [0x00],
        Syscall.sys_read 1] ∧
    (get_curr_regs w).curr_regs =
      { INPUT := read_into w.bus[3]? 1 (read_into w.bus[1]? 6 w.readBuf) 0,
        PSC0 := read_into w.bus[1]? 6 w.readBuf 1,
        PWM0 := read_into w.bus[1]? 6 w.readBuf 2,
        PSC1 := read_into w.bus[1]? 6 w.readBuf 3,
        PWM1 := read_into w.bus[1]? 6 w.readBuf 4,
        LS0 := read_into w.bus[1]? 6 w.readBuf 5 } ∧
    (∀ buf : Nat → Nat, read_into (some none) 6 buf = buf ∧ read_into none 6 buf = buf ∧
      read_into (some none) 1 buf = buf ∧ read_into none 1 buf = buf) ∧
    (w.bus[1]? = some none → w.bus[3]? = some none →
      (get_curr_regs w).curr_regs =
        { INPUT := w.readBuf 0, PSC0 := w.readBuf 1, PWM0 := w.readBuf 2,
          PSC1 := w.readBuf 3, PWM1 := w.readBuf 4, LS0 := w.readBuf 5 }) ∧
    (∀ args, valid_leds args →
      (main args w).status = 0 ∧
      (main args w).world.calls.getLast? = some Syscall.sys_close) := by
  refine ⟨get_curr_regs_calls w, get_curr_regs_bank w, fun _ => ⟨rfl, rfl, rfl, rfl⟩, ?_,
    fun args hv => main_valid args w hv⟩
  intro h1 h3
  rw [get_curr_regs_bank, h1, h3]
  rfl

/-- C9: for every byte `x` and every assignment of an optional valid token to
each of the four LED slots, the byte `new_ls0` that `main` computes by the
successive `generate_new_ls0` calls (slots 0, 1, 2, 3, from `x`) has, for every
`i` in 0..3, in field `i` the code of the requested token when slot `i` has a
request and field `i` of `x` otherwise; folding the slots in any other order
gives the same byte.  For `x = 0b01010101` and only LED2 = PWM1 it is
`0b01110101`. -/
theorem main_leds_fields (args : arguments) (x : Nat) (hx : x < 256) (hv : valid_leds args) :
    ∃ r, main_leds args x = .ok r ∧ r < 256 ∧
      (∀ i, i < 4 →
        (∀ t, slot args i = some t → ls_val t = some ((r >>> (2 * i)) &&& 3)) ∧
        (slot args i = none → (r >>> (2 * i)) &&& 3 = (x >>> (2 * i)) &&& 3)) ∧
      (∀ order : List Nat, order.Perm [0, 1, 2, 3] → fold_in_order args order x = .ok r) ∧
      main_leds { no_request with led2_str := some "PWM1" } 0b01010101 = .ok 0b01110101 := by
  obtain ⟨r, hr, hr256, hf⟩ := fold_perm_fields args hv x hx [0, 1, 2, 3] (List.Perm.refl _)
  refine ⟨r, by rw [main_leds_eq_fold]; exact hr, hr256, hf, ?_, rfl⟩
  intro order hperm
  obtain ⟨s, hs, hs256, hg⟩ := fold_perm_fields args hv x hx order hperm
  rw [hs]
  congr 1
  apply byte_ext s r hs256 hr256
  intro j hj
  cases hsl : slot args j with
  | none => rw [(hg j hj).2 hsl, (hf j hj).2 hsl]
  | some t =>
    have h1 := (hg j hj).1 t hsl
    have h2 := (hf j hj).1 t hsl
    rw [h1] at h2
    exact Option.some.inj h2

theorem main_leds_fields_witness :
    ∃ r, main_leds { no_request with led0_str := some "ON", led3_str := some "PWM0" } 0x55
        = .ok r ∧ r < 256 ∧
      fold_in_order { no_request with led0_str := some "ON", led3_str := some "PWM0" }
        [3, 1, 0, 2] 0x55 = .ok r := by
  obtain ⟨r, h1, h2, -, h4, -⟩ :=
    main_leds_fields { no_request with led0_str := some "ON", led3_str := some "PWM0" } 0x55
      (by decide) (by
        intro i hi s hs
        have h : i = 0 ∨ i = 1 ∨ i = 2 ∨ i = 3 := by omega
        rcases h with rfl | rfl | rfl | rfl <;> simp [slot, no_request] at hs <;>
          subst hs <;> decide)
  exact ⟨r, h1, h2, h4 [3, 1, 0, 2] (by decide)⟩

/-- C10 fails as stated: the first command byte `get_curr_regs` writes is 0x10,
whose register-index bits are 0, not 1. -/
theorem first_command_index_not_one :
    (get_curr_regs (init_world demo_bus)).calls.head? = some (Syscall.sys_write [0x10]) ∧
    ¬ (0x10 &&& 0x07 = 1) ∧
    ¬ ∃ c1, (get_curr_regs (init_world demo_bus)).calls.head? = some (Syscall.sys_write [c1]) ∧
      c1 &&& 0x07 = 1 := by
  refine ⟨rfl, by decide, ?_⟩
  rintro ⟨c1, h, hc⟩
  have h2 : (get_curr_regs (init_world demo_bus)).calls.head? =
      some (Syscall.sys_write [0x10]) := rfl
  rw [h2] at h
  simp only [Option.some.injEq, Syscall.sys_write.injEq, List.cons.injEq, and_true] at h
  subst h
  exact absurd hc (by decide)

/-- C10, amended: the first command byte `get_curr_regs` writes has the
autoincrement bit 0x10 set and register-index bits (command & 0x07) equal to 0,
so the six-byte read starts at the input register; the second command byte
selects the input register (index 0) with the autoincrement bit clear. -/
theorem get_curr_regs_commands (w : World) :
    ∃ c1 c2, (get_curr_regs w).calls = w.calls ++
        [Syscall.sys_write [c1], Syscall.sys_read 6, Syscall.sys_write [c2],
          Syscall.sys_read 1] ∧
      c1 &&& 0x10 = 0x10 ∧ c1 &&& 0x07 = 0 ∧ c2 &&& 0x07 = 0 ∧ c2 &&& 0x10 = 0 :=
  ⟨0x10, 0x00, get_curr_regs_calls w, by decide, by decide, by decide, by decide⟩

end SetPCA9553
